import Mathlib

/-!
Shallow embedding of the download-delivery pipeline of the Photolibrary
repository (source file src/utils/downloadTest.js, bundled with
src/utils/downloadUtils.js).

Strings are modelled by Lean String, with the JavaScript string primitives
used by the source re-expressed over the underlying character list so that
every definition is executable and kernel-reducible:
  - s.includes(sub)        -> strContains s sub   (contiguous substring test)
  - s.endsWith(suf)        -> strEndsWith s suf
  - s.split(sep).pop()     -> afterLastDot s      (suffix after the last dot,
                              or the whole string when no dot occurs; this is
                              exactly what split on a dot followed by pop
                              computes)
  - s.toLowerCase()        -> lowerStr s
Browser facilities that live outside the repository (the URL constructor,
the network, the DOM) are abstracted as explicit parameters (parse oracles,
strategy-success oracles, a DOM-state record), so that each theorem
quantifies over every possible behaviour of the platform.
-/

namespace Photolibrary

/-- Embeds the JavaScript substring test url.includes(sub): sub occurs
contiguously in s. -/
def strContains (s sub : String) : Bool :=
  decide (sub.data <:+: s.data)

/-- Embeds the JavaScript test that a string ends with the given suffix. -/
def strEndsWith (s suf : String) : Bool :=
  decide (suf.data <:+ s.data)

/-- Number of characters of a string, computed on the character data. -/
def strLen (s : String) : Nat := s.data.length

/-- Suffix of a character list after its last dot; the whole list when no
dot occurs. This is what the source computes with split on a dot followed
by pop. -/
def afterLastDotChars (cs : List Char) : List Char :=
  (cs.reverse.takeWhile (fun c => c != '.')).reverse

/-- String version of afterLastDotChars: embeds filename.split(".").pop()
from the source. -/
def afterLastDot (s : String) : String :=
  String.mk (afterLastDotChars s.data)

/-- Length of the segment after the last dot: embeds the check
filename.split(".").pop().length from ensureFileExtension. -/
def jsExtLen (s : String) : Nat :=
  (afterLastDotChars s.data).length

/-- Embeds lowercase conversion contentType.toLowerCase(). -/
def lowerStr (s : String) : String :=
  String.mk (s.data.map Char.toLower)

/-- Embeds the typeMap object lookup of ensureFileExtension
(downloadTest.js lines 133-148): maps a lowercased MIME type to its
canonical extension, none when the type is unknown. -/
def mimeExtension (ctLower : String) : Option String :=
  if ctLower = "image/jpeg" then some "jpg"
  else if ctLower = "image/jpg" then some "jpg"
  else if ctLower = "image/png" then some "png"
  else if ctLower = "image/webp" then some "webp"
  else if ctLower = "image/gif" then some "gif"
  else if ctLower = "video/mp4" then some "mp4"
  else if ctLower = "video/webm" then some "webm"
  else if ctLower = "video/avi" then some "avi"
  else if ctLower = "video/mov" then some "mov"
  else none

/-- Embeds the content-type step of ensureFileExtension (downloadTest.js
lines 132-149): the typeMap lookup runs only when contentType is a
non-empty string, on its lowercased form. -/
def extFromType (contentType : String) : Option String :=
  if contentType = "" then none else mimeExtension (lowerStr contentType)

/-- Embeds the URL step of ensureFileExtension (downloadTest.js lines
152-160). The browser URL constructor used as new URL(url).pathname is
not part of the repository; it is abstracted as the parameter
parseUrlPathname, which returns the pathname on success and none when
parsing throws (the source catches that exception and falls through).
The extension candidate is the pathname segment after its last dot,
accepted when it is non-empty, has at most 4 characters and contains no
slash. -/
def extFromUrlOfPathname (pathname : String) : Option String :=
  if afterLastDot pathname ≠ "" ∧ strLen (afterLastDot pathname) ≤ 4 ∧
      ¬ strContains (afterLastDot pathname) "/" = true then
    some (afterLastDot pathname)
  else none

/-- Embeds the try block around the URL step: a parse failure is caught
and treated as no URL extension available. -/
def extFromUrl (parseUrlPathname : String → Option String)
    (url : String) : Option String :=
  match parseUrlPathname url with
  | some pathname => extFromUrlOfPathname pathname
  | none => none

/-- Embeds the default step of ensureFileExtension (downloadTest.js lines
162-168): mp4 when the url looks like video, else jpg. -/
def fallbackExt (url : String) : String :=
  if strContains url "video" || strContains url ".mp4" ||
      strContains url ".webm" then "mp4"
  else "jpg"

/-- Embeds ensureFileExtension (downloadTest.js lines 123-169), with the
three derivation steps factored into extFromType, extFromUrl and
fallbackExt above:
  1. empty filename returns download.jpg at once;
  2. a filename whose segment after the last dot has at most 4 characters
     is returned unchanged;
  3. a known MIME type appends its canonical extension;
  4. a parsable URL whose pathname yields an acceptable last-dot segment
     appends that segment;
  5. otherwise the video-or-jpg default extension is appended. -/
def ensureFileExtension (parseUrlPathname : String → Option String)
    (filename url contentType : String) : String :=
  if filename = "" then "download.jpg"
  else if strContains filename "." && jsExtLen filename ≤ 4 then filename
  else
    match extFromType contentType with
    | some ext => filename ++ "." ++ ext
    | none =>
      match extFromUrl parseUrlPathname url with
      | some ue => filename ++ "." ++ ue
      | none => filename ++ "." ++ fallbackExt url

/-- Embeds the image-extension regular expression of downloadFile
(downloadTest.js line 652): a dot, one of the five image extensions, then
either a question mark or the end of the string, case-insensitively. -/
def imageExtPattern (url : String) : Bool :=
  let u := lowerStr url
  ["jpg", "jpeg", "png", "webp", "gif"].any (fun e =>
    strEndsWith u ("." ++ e) || strContains u ("." ++ e ++ "?"))

/-- Embeds the isImage flag of downloadFile (downloadTest.js line 652):
the url contains the substring image, or matches the image-extension
pattern. Note that this is computed from the URL text alone; downloadFile
never sees a content type. -/
def isImage (url : String) : Bool :=
  strContains url "image" || imageExtPattern url

/-- Result record of downloadFile: embeds the object with fields success,
method and optional error. -/
structure TransferOutcome where
  success : Bool
  method : String
  error : Option String
deriving Repr, DecidableEq

/-- Oracle abstracting the platform-dependent outcome of each transfer
strategy: true means the awaited strategy call resolves, false means it
rejects. The new-tab strategy has no entry because downloadViaNewTab
(downloadTest.js lines 590-631) unconditionally returns a resolved
promise: its only try block is followed by an unconditional
Promise.resolve. -/
structure NetOracle where
  directFetchOk : Bool
  fetchOk : Bool
  xhrOk : Bool
  canvasOk : Bool
  iframeOk : Bool
deriving Repr, DecidableEq

/-- The ordered strategy list downloadFile walks through (downloadTest.js
lines 657-702), each with the oracle bit saying whether its awaited call
resolves. The canvas entry is present exactly when isImage url holds; the
newtab entry always resolves. -/
def strategyChain (o : NetOracle) (url : String) : List (String × Bool) :=
  [("direct-fetch", o.directFetchOk), ("fetch", o.fetchOk), ("xhr", o.xhrOk)]
    ++ (if isImage url then [("canvas", o.canvasOk)] else [])
    ++ [("iframe", o.iframeOk), ("newtab", true)]

/-- The terminal failure object of downloadFile (downloadTest.js lines
705-709), returned only when even the new-tab fallback rejected. -/
def allMethodsFailedOutcome : TransferOutcome :=
  ⟨false, "none",
    some "All download methods failed. Please try again or contact support."⟩

/-- Walks the strategy chain exactly as the sequence of try blocks in
downloadFile does: the first strategy whose call resolves produces a
success outcome named after it; if every strategy rejects the terminal
failure object is produced. -/
def runChain : List (String × Bool) → TransferOutcome
  | [] => allMethodsFailedOutcome
  | (name, ok) :: rest => if ok then ⟨true, name, none⟩ else runChain rest

/-- Embeds downloadFile (downloadTest.js lines 640-711). A rejected
promise is modelled by Except.error: the source starts with
if (!url || !filename) throw new Error(...), which rejects the async
function; otherwise the chain of try blocks always produces a resolved
TransferOutcome. -/
def downloadFile (o : NetOracle) (url filename : String) :
    Except String TransferOutcome :=
  if url = "" ∨ filename = "" then
    .error "URL and filename are required"
  else
    .ok (runChain (strategyChain o url))

/-- Name of the first strategy in the chain whose call resolves. -/
def firstSuccessName (l : List (String × Bool)) : Option String :=
  ((l.filter (fun p => p.2)).head?).map (fun p => p.1)

/-- One entry of the files argument of downloadMultipleFiles: an object
with url and filename fields. -/
structure FileItem where
  url : String
  filename : String
deriving Repr, DecidableEq

/-- One entry of the results array built by downloadMultipleFiles: the
spread of the file object, the spread of the per-item outcome, and the
global index of the item. -/
structure BatchItemResult where
  file : FileItem
  success : Bool
  method : String
  error : Option String
  index : Nat
deriving Repr, DecidableEq

/-- The object downloadMultipleFiles resolves to (downloadTest.js lines
915-920). -/
structure BatchResult where
  successful : Nat
  failed : Nat
  total : Nat
  results : List BatchItemResult
deriving Repr, DecidableEq

/-- Embeds the body of one batch callback of downloadMultipleFiles
(downloadTest.js lines 844-908) for the item at the given global index.
The per-item oracle gives the settled result of the inner downloadFile
call: Except.ok is the try path, which pushes the spread of file and
result with the index; Except.error is the catch path, which pushes a
failure entry with method none and the error message. Either way exactly
one entry is pushed per item. -/
def processItem (oracle : Nat → FileItem → Except String TransferOutcome)
    (idx : Nat) (f : FileItem) : BatchItemResult :=
  match oracle idx f with
  | .ok r => ⟨f, r.success, r.method, r.error, idx⟩
  | .error e => ⟨f, false, "none", some e, idx⟩

/-- Structural worker for the batching loop: the fuel argument bounds the
number of iterations, and the loop of the source performs at most one
iteration per input item, so a fuel equal to the input length is always
sufficient. -/
def chunkListAux (c : Nat) : Nat → List α → List (List α)
  | _, [] => []
  | 0, _ :: _ => []
  | Nat.succ fuel, x :: xs =>
    if c = 0 then []
    else (x :: xs).take c :: chunkListAux c fuel ((x :: xs).drop c)

/-- Embeds the batching loop header of downloadMultipleFiles
(downloadTest.js line 841): for i from 0 step c, slice(i, i + c). The
result is the list of consecutive chunks of size at most c. The source
loop does not terminate when the concurrency is 0; that degenerate value
is mapped to the empty chunk list here and excluded by hypothesis in
every theorem about batching. -/
def chunkList (c : Nat) (xs : List α) : List (List α) :=
  chunkListAux c xs.length xs

/-- The flattened results array of downloadMultipleFiles: items are
paired with their global index, cut into batches of size at most c, and
each batch pushes one entry per item. Each batch is awaited with
Promise.all before the next one starts; the sequential flattening below
is the event-loop order of a run in which entries of one batch settle in
slice order. -/
def batchResults (oracle : Nat → FileItem → Except String TransferOutcome)
    (c : Nat) (files : List FileItem) : List BatchItemResult :=
  ((chunkList c files.enum).map
    (fun batch => batch.map (fun p => processItem oracle p.1 p.2))).flatten

/-- Embeds downloadMultipleFiles (downloadTest.js lines 825-921). The
files argument is an Option to model the Array.isArray guard: none is a
non-array argument. A rejected promise is Except.error. The successful
and failed counters are incremented once per item, by whether the pushed
entry has success true, so they equal the corresponding filter lengths
of the results array. -/
def downloadMultipleFiles
    (oracle : Nat → FileItem → Except String TransferOutcome)
    (concurrency : Nat) :
    Option (List FileItem) → Except String BatchResult
  | none => .error "Files array is required and must not be empty"
  | some fs =>
    if fs.length = 0 then
      .error "Files array is required and must not be empty"
    else
      .ok ⟨((batchResults oracle concurrency fs).filter
              (fun r => r.success)).length,
           ((batchResults oracle concurrency fs).filter
              (fun r => !r.success)).length,
           fs.length,
           batchResults oracle concurrency fs⟩

/-!
DOM-state model for the cleanup claims. The document is abstracted to the
number of transient elements (anchor, iframe) currently attached to it
and the number of object URLs created and not yet revoked. Each strategy
helper is embedded as a state transformer run to quiescence: all its
pending setTimeout continuations have executed by the time the returned
state is observed, which is when its promise settles (the promises of
triggerDownload and forceDownload resolve inside the cleanup timeout).
Platform DOM primitives (createElement, appendChild, removeChild,
createObjectURL, revokeObjectURL) are total state operations; which click
techniques and reads throw is abstracted by an oracle.
-/

/-- Abstract DOM and object-URL state. -/
structure DomState where
  attachedElems : Nat
  liveObjectUrls : Nat
deriving Repr, DecidableEq

/-- Oracle for the platform-dependent throwing behaviour inside the
trigger helpers: one flag per click technique, one for the FileReader
failing, one for the click on the data-URL anchor throwing. -/
structure ClickOracle where
  standardClickThrows : Bool
  dispatchEventThrows : Bool
  focusClickThrows : Bool
  trustedEventThrows : Bool
  readerFails : Bool
  dataUrlClickThrows : Bool
deriving Repr, DecidableEq

/-- Embeds triggerDownload (downloadTest.js lines 177-257): create an
object URL, append the anchor, try the standard click, the dispatched
mouse event, then focus-and-click, stopping at the first that does not
throw; the cleanup timeout removes the anchor and revokes the object URL
in every case, then resolves when some technique ran and rejects
otherwise. -/
def triggerDownload (o : ClickOracle) (s : DomState) :
    DomState × Except String Unit :=
  let s1 : DomState := ⟨s.attachedElems + 1, s.liveObjectUrls + 1⟩
  let triggered :=
    !o.standardClickThrows || !o.dispatchEventThrows || !o.focusClickThrows
  let s2 : DomState := ⟨s1.attachedElems - 1, s1.liveObjectUrls - 1⟩
  (s2, if triggered then .ok () else
    .error "Failed to trigger download - all click methods failed")

/-- Embeds tryDataUrlDownload (downloadTest.js lines 431-467): when the
FileReader errors no element is ever created and the promise rejects;
otherwise the onload handler appends a data-URL anchor, clicks it, and
removes it on both the success and the failure path before settling. No
object URL is involved. -/
def tryDataUrlDownload (o : ClickOracle) (s : DomState) :
    DomState × Except String Unit :=
  if o.readerFails then
    (s, .error "Failed to read blob as data URL")
  else
    let s1 : DomState := ⟨s.attachedElems + 1, s.liveObjectUrls⟩
    let s2 : DomState := ⟨s1.attachedElems - 1, s1.liveObjectUrls⟩
    (s2, if o.dataUrlClickThrows then
      .error "Data URL download failed" else .ok ())

/-- Embeds forceDownload (downloadTest.js lines 330-423): create an
object URL, append the anchor, try four click techniques in order; the
cleanup timeout removes the anchor and revokes the object URL, then
resolves on success and otherwise falls through to tryDataUrlDownload. -/
def forceDownload (o : ClickOracle) (s : DomState) :
    DomState × Except String Unit :=
  let s1 : DomState := ⟨s.attachedElems + 1, s.liveObjectUrls + 1⟩
  let success :=
    !o.standardClickThrows || !o.dispatchEventThrows ||
      !o.focusClickThrows || !o.trustedEventThrows
  let s2 : DomState := ⟨s1.attachedElems - 1, s1.liveObjectUrls - 1⟩
  if success then (s2, .ok ()) else tryDataUrlDownload o s2

/-- Embeds the DOM effect of downloadViaIframe (downloadTest.js lines
776-817): when the URL constructor throws, the detached iframe is never
appended and the promise rejects; otherwise the iframe is appended and
the two-second cleanup timeout removes it and resolves. -/
def downloadViaIframe (urlParses : Bool) (s : DomState) :
    DomState × Except String Unit :=
  if urlParses then
    let s1 : DomState := ⟨s.attachedElems + 1, s.liveObjectUrls⟩
    (⟨s1.attachedElems - 1, s1.liveObjectUrls⟩, .ok ())
  else
    (s, .error "Iframe download failed")

/-- Embeds the DOM effect of downloadViaNewTab (downloadTest.js lines
590-631): append an anchor, click it, remove it synchronously, and
always resolve. The click sits between appendChild and removeChild with
no per-call guard: when it throws, control jumps to the catch, which
only calls window.open and never removes the anchor, so the appended
element stays attached; the function still returns a resolved promise
in both paths. -/
def downloadViaNewTab (o : ClickOracle) (s : DomState) :
    DomState × Except String Unit :=
  if o.standardClickThrows then
    (⟨s.attachedElems + 1, s.liveObjectUrls⟩, .ok ())
  else
    let s1 : DomState := ⟨s.attachedElems + 1, s.liveObjectUrls⟩
    (⟨s1.attachedElems - 1, s1.liveObjectUrls⟩, .ok ())

/-- Embeds the DOM effect of downloadViaDirectFetch (downloadTest.js
lines 719-768). When the fetch fails or the response is not ok, no
element is ever created and the promise rejects. Otherwise the promise
resolves as soon as readAsDataURL is initiated (the function does not
await the reader), and the DOM work happens later in the onload handler:
no onerror handler is registered, so a failing read fires no handler and
creates no element; on a successful read the handler appends an anchor
and a timeout clicks it and only then schedules the removal, so a
throwing click skips scheduling the removal entirely and the anchor
stays attached. The returned state is the run-to-quiescence state. -/
def downloadViaDirectFetch (fetchOk : Bool) (o : ClickOracle)
    (s : DomState) : DomState × Except String Unit :=
  if !fetchOk then
    (s, .error "Direct fetch download failed")
  else if o.readerFails then
    (s, .ok ())
  else if o.standardClickThrows then
    (⟨s.attachedElems + 1, s.liveObjectUrls⟩, .ok ())
  else
    let s1 : DomState := ⟨s.attachedElems + 1, s.liveObjectUrls⟩
    (⟨s1.attachedElems - 1, s1.liveObjectUrls⟩, .ok ())

/-!
Helper lemmas about the embedded string primitives, the strategy chain
and the batching structure. These are shared infrastructure, not claim
theorems.
-/

theorem takeWhile_append_all {p : Char → Bool} {l : List Char}
    (hl : ∀ a ∈ l, p a = true) {x : Char} (hx : p x = false)
    (r : List Char) : List.takeWhile p (l ++ x :: r) = l := by
  induction l with
  | nil => simp [List.takeWhile, hx]
  | cons a l ih =>
    have ha : p a = true := hl a (by simp)
    simp only [List.cons_append, List.takeWhile, ha, List.append_eq]
    rw [ih (fun b hb => hl b (by simp [hb]))]

theorem afterLastDotChars_append {ys : List Char} (h : '.' ∉ ys)
    (xs : List Char) : afterLastDotChars (xs ++ '.' :: ys) = ys := by
  unfold afterLastDotChars
  rw [List.reverse_append, List.reverse_cons]
  rw [List.append_assoc, List.singleton_append]
  rw [takeWhile_append_all (fun a ha => ?_) (by simp) xs.reverse]
  · simp
  · simp only [bne_iff_ne, ne_eq, decide_eq_true_eq]
    intro hc
    exact h (by simpa [hc] using List.mem_reverse.mp ha)

theorem dot_not_mem_afterLastDotChars (cs : List Char) :
    '.' ∉ afterLastDotChars cs := by
  unfold afterLastDotChars
  intro hmem
  have := List.mem_takeWhile_imp (List.mem_reverse.mp hmem)
  simp at this

theorem data_append_dot (fn ext : String) :
    (fn ++ "." ++ ext).data = fn.data ++ '.' :: ext.data := by
  simp [String.data_append]

theorem appended_extension_spec (fn ext : String)
    (hnd : '.' ∉ ext.data) (hlen : ext.data.length ≤ 4) :
    (fn ++ "." ++ ext) ≠ "" ∧
      strContains (fn ++ "." ++ ext) "." = true ∧
      jsExtLen (fn ++ "." ++ ext) ≤ 4 := by
  refine ⟨?_, ?_, ?_⟩
  · intro h
    have : (fn ++ "." ++ ext).data = [] := by rw [h]
    rw [data_append_dot] at this
    simp at this
  · unfold strContains
    rw [data_append_dot]
    simp only [decide_eq_true_eq]
    exact ⟨fn.data, ext.data, by simp⟩
  · unfold jsExtLen
    rw [data_append_dot, afterLastDotChars_append hnd]
    exact hlen

theorem mimeExtension_extension_spec {ct e : String}
    (h : mimeExtension ct = some e) :
    '.' ∉ e.data ∧ e.data.length ≤ 4 := by
  unfold mimeExtension at h
  split_ifs at h <;> simp only [Option.some.injEq] at h <;>
    subst h <;> refine ⟨by decide, by decide⟩

theorem extFromType_spec {ct e : String} (h : extFromType ct = some e) :
    '.' ∉ e.data ∧ e.data.length ≤ 4 := by
  unfold extFromType at h
  split_ifs at h
  exact mimeExtension_extension_spec h

theorem extFromUrl_spec {parse : String → Option String} {url ue : String}
    (h : extFromUrl parse url = some ue) :
    '.' ∉ ue.data ∧ ue.data.length ≤ 4 := by
  unfold extFromUrl at h
  cases hp : parse url with
  | none => rw [hp] at h; exact Option.noConfusion h
  | some pathname =>
    rw [hp] at h
    have h2 : extFromUrlOfPathname pathname = some ue := h
    unfold extFromUrlOfPathname at h2
    split_ifs at h2 with hcond
    have hueq : afterLastDot pathname = ue := Option.some.inj h2
    subst hueq
    exact ⟨dot_not_mem_afterLastDotChars pathname.data, hcond.2.1⟩

theorem runChain_firstSuccess {l : List (String × Bool)} {m : String}
    (h : firstSuccessName l = some m) : runChain l = ⟨true, m, none⟩ := by
  induction l with
  | nil => simp [firstSuccessName] at h
  | cons p rest ih =>
    obtain ⟨name, ok⟩ := p
    by_cases hok : ok = true
    · subst hok
      simp only [firstSuccessName, List.filter] at h
      simp only [List.head?, Option.map] at h
      simp only [Option.some.injEq] at h
      simp [runChain, h]
    · have hok2 : ok = false := by revert hok; cases ok <;> simp
      subst hok2
      simp only [firstSuccessName, List.filter] at h
      simp only [runChain]
      exact ih h

theorem runChain_method_cases (l : List (String × Bool)) :
    (runChain l).method = "none" ∨ (runChain l).method ∈ l.map Prod.fst := by
  induction l with
  | nil => left; rfl
  | cons p rest ih =>
    obtain ⟨name, ok⟩ := p
    simp only [runChain]
    by_cases hok : ok = true
    · subst hok; right; simp
    · have hok2 : ok = false := by revert hok; cases ok <;> simp
      subst hok2
      simp only [if_neg (by simp : ¬(false = true))]
      rcases ih with h | h
      · left; exact h
      · right; simp [h]

theorem strategyChain_firstSuccess_exists (o : NetOracle) (url : String) :
    ∃ m, firstSuccessName (strategyChain o url) = some m := by
  obtain ⟨a, b, c, d, e⟩ := o
  cases himg : isImage url <;>
    cases a <;> cases b <;> cases c <;> cases d <;> cases e <;>
    simp [strategyChain, firstSuccessName, himg, List.filter]

theorem chunkListAux_flatten {α : Type} (c : Nat) (hc : c ≠ 0) :
    ∀ (fuel : Nat) (xs : List α), xs.length ≤ fuel →
      (chunkListAux c fuel xs).flatten = xs := by
  intro fuel
  induction fuel with
  | zero =>
    intro xs hxs
    have : xs = [] := List.length_eq_zero.mp (Nat.le_zero.mp hxs)
    subst this
    rfl
  | succ fuel ih =>
    intro xs hxs
    cases xs with
    | nil => rfl
    | cons x xs =>
      rw [chunkListAux]
      rw [if_neg hc, List.flatten_cons]
      rw [ih ((x :: xs).drop c) ?_]
      · exact List.take_append_drop c (x :: xs)
      · simp only [List.length_drop, List.length_cons] at hxs ⊢
        omega

theorem chunkList_flatten {α : Type} (c : Nat) (hc : c ≠ 0)
    (xs : List α) : (chunkList c xs).flatten = xs :=
  chunkListAux_flatten c hc xs.length xs le_rfl

theorem chunkListAux_mem_length_le {α : Type} (c : Nat) :
    ∀ (fuel : Nat) (xs : List α), ∀ b ∈ chunkListAux c fuel xs,
      b.length ≤ c := by
  intro fuel
  induction fuel with
  | zero =>
    intro xs b hb
    cases xs <;> simp [chunkListAux] at hb
  | succ fuel ih =>
    intro xs b hb
    cases xs with
    | nil => simp [chunkListAux] at hb
    | cons x xs =>
      rw [chunkListAux] at hb
      by_cases hc : c = 0
      · simp [hc] at hb
      · rw [if_neg hc] at hb
        rcases List.mem_cons.mp hb with hb | hb
        · subst hb
          rw [List.length_take]
          exact inf_le_left
        · exact ih ((x :: xs).drop c) b hb

theorem chunkList_mem_length_le {α : Type} (c : Nat) (xs : List α) :
    ∀ b ∈ chunkList c xs, b.length ≤ c :=
  chunkListAux_mem_length_le c xs.length xs

theorem processItem_index_file
    (oracle : Nat → FileItem → Except String TransferOutcome)
    (idx : Nat) (f : FileItem) :
    (processItem oracle idx f).index = idx ∧
      (processItem oracle idx f).file = f := by
  unfold processItem
  cases oracle idx f <;> exact ⟨rfl, rfl⟩

theorem batchResults_eq_map
    (oracle : Nat → FileItem → Except String TransferOutcome)
    {c : Nat} (hc : c ≠ 0) (files : List FileItem) :
    batchResults oracle c files =
      files.enum.map (fun p => processItem oracle p.1 p.2) := by
  unfold batchResults
  rw [← List.map_flatten, chunkList_flatten c hc]

theorem map_index_file_processItem
    (oracle : Nat → FileItem → Except String TransferOutcome) :
    ∀ l : List (Nat × FileItem),
      (l.map (fun p => processItem oracle p.1 p.2)).map
          (fun r => (r.index, r.file)) = l := by
  intro l
  induction l with
  | nil => rfl
  | cons p rest ih =>
    obtain ⟨hi, hf⟩ := processItem_index_file oracle p.1 p.2
    simp only [List.map_cons, ih, hi, hf]

/-!
Claim theorems. Each theorem is stated over the embedded definitions
above and is preceded by a comment naming the claim it settles.
-/

/-- Claim C1, counterexample. The claim states that every failure path of
downloadFile, including an empty or missing url or filename, resolves to
a failure outcome with method none. On the code, an empty url makes the
async function throw, which rejects the promise instead of resolving it:
at url empty and filename photo.jpg the result is a rejection carrying
the message URL and filename are required, not a resolved outcome. -/
theorem downloadFile_rejects_on_empty_url :
    downloadFile ⟨true, true, true, true, true⟩ "" "photo.jpg" =
      .error "URL and filename are required" := rfl

/-- Claim C1 as amended. For every input with non-empty url and filename
the promise returned by downloadFile settles by resolving to a
TransferOutcome and never rejects; an empty or missing url or filename
instead rejects the promise with the message URL and filename are
required, rather than resolving to a failure outcome. -/
theorem downloadFile_never_rejects_on_valid_input :
    (∀ (o : NetOracle) (url fn : String), url ≠ "" → fn ≠ "" →
      ∃ t, downloadFile o url fn = .ok t) ∧
    (∀ (o : NetOracle) (fn : String),
      downloadFile o "" fn = .error "URL and filename are required") ∧
    (∀ (o : NetOracle) (url : String),
      downloadFile o url "" = .error "URL and filename are required") := by
  refine ⟨?_, ?_, ?_⟩
  · intro o url fn hu hf
    refine ⟨runChain (strategyChain o url), ?_⟩
    unfold downloadFile
    rw [if_neg (by tauto)]
  · intro o fn
    unfold downloadFile
    rw [if_pos (Or.inl rfl)]
  · intro o url
    unfold downloadFile
    rw [if_pos (Or.inr rfl)]

/-- Witness for the amended claim C1 at a concrete input. -/
theorem downloadFile_never_rejects_on_valid_input_witness :
    ∃ t, downloadFile ⟨false, false, false, false, false⟩
      "https://h.example/a.bin" "a.bin" = .ok t :=
  downloadFile_never_rejects_on_valid_input.1
    ⟨false, false, false, false, false⟩ "https://h.example/a.bin" "a.bin"
    (by decide) (by decide)

/-- Claim C2. When every automated strategy rejects, downloadFile resolves
to a success outcome whose method is newtab: the chain terminates in the
new-tab fallback, whose embedded call always resolves, so exhaustion of
the automated strategies never yields a hard failure. -/
theorem downloadFile_exhaustion_resolves_newtab
    (o : NetOracle) (url fn : String) (hu : url ≠ "") (hf : fn ≠ "")
    (h1 : o.directFetchOk = false) (h2 : o.fetchOk = false)
    (h3 : o.xhrOk = false) (h4 : o.canvasOk = false)
    (h5 : o.iframeOk = false) :
    downloadFile o url fn = .ok ⟨true, "newtab", none⟩ := by
  obtain ⟨a, b, c, d, e⟩ := o
  simp only at h1 h2 h3 h4 h5
  subst h1 h2 h3 h4 h5
  unfold downloadFile
  rw [if_neg (by tauto)]
  cases himg : isImage url <;> simp [strategyChain, runChain, himg]

/-- Witness for claim C2 at a concrete input. -/
theorem downloadFile_exhaustion_resolves_newtab_witness :
    downloadFile ⟨false, false, false, false, false⟩
      "https://h.example/a.bin" "a.bin" = .ok ⟨true, "newtab", none⟩ :=
  downloadFile_exhaustion_resolves_newtab
    ⟨false, false, false, false, false⟩ "https://h.example/a.bin" "a.bin"
    (by decide) (by decide) rfl rfl rfl rfl rfl

/-- Claim C4. downloadFile walks the strategy chain in the fixed order
direct-fetch, fetch, xhr, canvas for image urls only, iframe, newtab,
stops at the first strategy whose call resolves, and reports that
strategy as the method; in particular when direct-fetch, fetch and xhr
all fail on an image url and canvas succeeds, the reported method is
exactly canvas. -/
theorem downloadFile_reports_first_success :
    (∀ (o : NetOracle) (url fn : String), url ≠ "" → fn ≠ "" →
      ∃ t, downloadFile o url fn = .ok t ∧ t.success = true ∧
        firstSuccessName (strategyChain o url) = some t.method) ∧
    (∀ (o : NetOracle) (url fn : String), url ≠ "" → fn ≠ "" →
      isImage url = true → o.directFetchOk = false → o.fetchOk = false →
      o.xhrOk = false → o.canvasOk = true →
      downloadFile o url fn = .ok ⟨true, "canvas", none⟩) := by
  constructor
  · intro o url fn hu hf
    obtain ⟨m, hm⟩ := strategyChain_firstSuccess_exists o url
    refine ⟨⟨true, m, none⟩, ?_, rfl, by rw [hm]⟩
    unfold downloadFile
    rw [if_neg (by tauto), runChain_firstSuccess hm]
  · intro o url fn hu hf himg h1 h2 h3 h4
    obtain ⟨a, b, c, d, e⟩ := o
    simp only at h1 h2 h3 h4
    subst h1 h2 h3 h4
    unfold downloadFile
    rw [if_neg (by tauto)]
    simp [strategyChain, runChain, himg]

/-- Witness for claim C4 at a concrete input where the first three
strategies fail and canvas succeeds on an image url. -/
theorem downloadFile_reports_first_success_witness :
    downloadFile ⟨false, false, false, true, true⟩
      "https://h.example/pic.jpg" "pic" = .ok ⟨true, "canvas", none⟩ :=
  downloadFile_reports_first_success.2
    ⟨false, false, false, true, true⟩ "https://h.example/pic.jpg" "pic"
    (by decide) (by decide) (by decide) rfl rfl rfl rfl

/-- Claim C5, counterexample. The claim states that a request whose
content is video, such as video/mp4, never invokes the canvas strategy.
downloadFile never sees a content type: the canvas gate is the url text.
At the mp4 video url below, which contains the substring image in its
path, the gate holds, the canvas strategy runs after the first three
strategies fail, and the reported method is canvas. -/
theorem downloadFile_canvas_runs_for_mp4_url :
    downloadFile ⟨false, false, false, true, false⟩
      "https://cdn.example/image/clip.mp4" "clip.mp4" =
        .ok ⟨true, "canvas", none⟩ ∧
    isImage "https://cdn.example/image/clip.mp4" = true := ⟨rfl, by decide⟩

/-- Claim C5 as amended. The canvas strategy is gated on the url text
alone: whenever isImage url is false, that is the url neither contains
the substring image nor matches the image-extension pattern, canvas is
absent from the strategy chain and the reported method is never canvas,
even when all earlier strategies fail. Typical video urls satisfy this,
but a video url containing the substring image does not. -/
theorem downloadFile_canvas_skipped_for_nonimage_url
    (o : NetOracle) (url fn : String) (hu : url ≠ "") (hf : fn ≠ "")
    (himg : isImage url = false) :
    "canvas" ∉ (strategyChain o url).map Prod.fst ∧
      ∀ t, downloadFile o url fn = .ok t → t.method ≠ "canvas" := by
  constructor
  · simp [strategyChain, himg]
  · intro t ht
    unfold downloadFile at ht
    rw [if_neg (by tauto)] at ht
    have hteq : t = runChain (strategyChain o url) := by
      cases ht; rfl
    subst hteq
    intro hcan
    rcases runChain_method_cases (strategyChain o url) with h | h
    · rw [hcan] at h
      exact absurd h (by decide)
    · rw [hcan] at h
      revert h
      simp [strategyChain, himg]

/-- Witness for the amended claim C5 at a concrete video url without
image markers. -/
theorem downloadFile_canvas_skipped_for_nonimage_url_witness :
    "canvas" ∉ (strategyChain ⟨false, false, false, true, false⟩
        "https://cdn.example/media/clip.mp4").map Prod.fst ∧
      ∀ t, downloadFile ⟨false, false, false, true, false⟩
          "https://cdn.example/media/clip.mp4" "clip.mp4" = .ok t →
        t.method ≠ "canvas" :=
  downloadFile_canvas_skipped_for_nonimage_url
    ⟨false, false, false, true, false⟩ "https://cdn.example/media/clip.mp4"
    "clip.mp4" (by decide) (by decide) (by decide)

/-- Claim C3, counterexample. The claim states that the resolver always
returns a string containing a dot followed by an extension of length 1
to 4. A filename that ends in a dot already passes the short-extension
check of the source, whose popped segment is empty, and is returned
unchanged: the segment after the last dot of the result has length 0,
not 1 to 4. -/
theorem ensureFileExtension_zero_length_extension :
    ensureFileExtension (fun _ => none) "file." "https://h.example/x" "" =
      "file." ∧
    jsExtLen
      (ensureFileExtension (fun _ => none) "file." "https://h.example/x" "")
      = 0 := by
  decide

/-- Claim C3 as amended. The resolver is total: for every parse oracle
and every triple of filename, url and contentType, including an empty
filename and an unparsable url, ensureFileExtension returns a non-empty
string that contains a dot and whose segment after the last dot has
length at most 4; the length 0 case arises exactly when the supplied
filename already ends in a dot and is returned unchanged. -/
theorem ensureFileExtension_total
    (parse : String → Option String) (fn url ct : String) :
    ensureFileExtension parse fn url ct ≠ "" ∧
      strContains (ensureFileExtension parse fn url ct) "." = true ∧
      jsExtLen (ensureFileExtension parse fn url ct) ≤ 4 := by
  unfold ensureFileExtension
  split
  · exact ⟨by decide, by decide, by decide⟩
  rename_i hfn
  split
  · rename_i hshort
    rw [Bool.and_eq_true] at hshort
    exact ⟨hfn, hshort.1, of_decide_eq_true hshort.2⟩
  rename_i hlong
  cases hmt : extFromType ct with
  | some ext =>
    obtain ⟨hnd, hlen⟩ := extFromType_spec hmt
    exact appended_extension_spec fn ext hnd hlen
  | none =>
    cases hfu : extFromUrl parse url with
    | some ue =>
      obtain ⟨hnd, hlen⟩ := extFromUrl_spec hfu
      exact appended_extension_spec fn ue hnd hlen
    | none =>
      show fn ++ "." ++ fallbackExt url ≠ "" ∧
        strContains (fn ++ "." ++ fallbackExt url) "." = true ∧
        jsExtLen (fn ++ "." ++ fallbackExt url) ≤ 4
      unfold fallbackExt
      split
      · exact appended_extension_spec fn "mp4" (by decide) (by decide)
      · exact appended_extension_spec fn "jpg" (by decide) (by decide)

/-- Claim C6, counterexample. The claim states that an empty desired
filename with contentType video/mp4 yields download.mp4. On the code the
empty-filename guard returns download.jpg before the content type is
ever consulted. -/
theorem ensureFileExtension_empty_name_mp4_counterexample :
    ensureFileExtension (fun _ => none) "" "https://h.example/clip"
      "video/mp4" = "download.jpg" := by
  decide

/-- Claim C6 as amended. For an empty desired filename,
ensureFileExtension returns download.jpg regardless of contentType; the
canonical extension of a known MIME type is appended only when the
desired filename is non-empty and lacks a short extension, as in clip
with video/mp4 yielding clip.mp4 and pic with image/png yielding
pic.png. -/
theorem ensureFileExtension_empty_name_default :
    (∀ (parse : String → Option String) (url ct : String),
      ensureFileExtension parse "" url ct = "download.jpg") ∧
    ensureFileExtension (fun _ => none) "clip" "https://h.example/c"
      "video/mp4" = "clip.mp4" ∧
    ensureFileExtension (fun _ => none) "pic" "https://h.example/p"
      "image/png" = "pic.png" := by
  refine ⟨?_, by decide, by decide⟩
  intro parse url ct
  unfold ensureFileExtension
  rw [if_pos rfl]

/-- Claim C7. For every per-item oracle, every positive concurrency and
every non-empty file list, downloadMultipleFiles resolves to a batch
result whose results array has exactly one entry per input item, carrying
the item and its global index in order, with total equal to the input
length and successful plus failed equal to total. -/
theorem downloadMultipleFiles_complete
    (oracle : Nat → FileItem → Except String TransferOutcome)
    (c : Nat) (files : List FileItem) (hc : c ≠ 0) (hne : files ≠ []) :
    ∃ b, downloadMultipleFiles oracle c (some files) = .ok b ∧
      b.total = files.length ∧
      b.results.length = files.length ∧
      b.successful + b.failed = b.total ∧
      b.results.map (fun r : BatchItemResult => (r.index, r.file)) =
        files.enum := by
  have hlen : ¬ files.length = 0 := by
    intro h; exact hne (List.length_eq_zero.mp h)
  have hres : (batchResults oracle c files).length = files.length := by
    rw [batchResults_eq_map oracle hc files, List.length_map,
      List.enum_length]
  simp only [downloadMultipleFiles]
  rw [if_neg hlen]
  refine ⟨_, rfl, rfl, hres, ?_, ?_⟩
  · show ((batchResults oracle c files).filter
        (fun r => r.success)).length +
      ((batchResults oracle c files).filter
        (fun r => !r.success)).length = files.length
    rw [← hres]
    exact (@List.length_eq_length_filter_add BatchItemResult
      (batchResults oracle c files) (fun r => r.success)).symm
  · show (batchResults oracle c files).map
        (fun r : BatchItemResult => (r.index, r.file)) = files.enum
    rw [batchResults_eq_map oracle hc files,
      map_index_file_processItem oracle files.enum]

/-- Witness for claim C7 at a concrete one-element batch. -/
theorem downloadMultipleFiles_complete_witness :
    ∃ b, downloadMultipleFiles (fun _ _ => .ok ⟨true, "fetch", none⟩) 1
        (some [⟨"https://h.example/a.jpg", "a.jpg"⟩]) = .ok b ∧
      b.total = 1 ∧ b.results.length = 1 ∧
      b.successful + b.failed = b.total ∧
      b.results.map (fun r : BatchItemResult => (r.index, r.file)) =
        [(0, ⟨"https://h.example/a.jpg", "a.jpg"⟩)] :=
  downloadMultipleFiles_complete (fun _ _ => .ok ⟨true, "fetch", none⟩) 1
    [⟨"https://h.example/a.jpg", "a.jpg"⟩] (by decide) (by decide)

/-- Claim C9. For every positive concurrency c, the batching loop of
downloadMultipleFiles cuts the indexed items into consecutive chunks of
size at most c whose concatenation is the whole indexed input, and the
results array is the concatenation of the per-chunk result lists in
chunk order: each chunk is awaited in full before the next one starts,
so at no instant are more than c per-item downloads in flight. -/
theorem downloadMultipleFiles_bounded_concurrency
    (oracle : Nat → FileItem → Except String TransferOutcome)
    (c : Nat) (files : List FileItem) (hc : 1 ≤ c) :
    (∀ batch ∈ chunkList c files.enum, batch.length ≤ c) ∧
      (chunkList c files.enum).flatten = files.enum ∧
      batchResults oracle c files =
        ((chunkList c files.enum).map
          (fun batch => batch.map (fun p => processItem oracle p.1 p.2))).flatten :=
  ⟨chunkList_mem_length_le c files.enum,
    chunkList_flatten c (by omega) files.enum, rfl⟩

/-- Witness for claim C9 with concurrency 2 and five items. -/
theorem downloadMultipleFiles_bounded_concurrency_witness :
    (∀ batch ∈ chunkList 2
        ([⟨"u1", "f1"⟩, ⟨"u2", "f2"⟩, ⟨"u3", "f3"⟩, ⟨"u4", "f4"⟩,
          ⟨"u5", "f5"⟩] : List FileItem).enum, batch.length ≤ 2) ∧
      (chunkList 2 ([⟨"u1", "f1"⟩, ⟨"u2", "f2"⟩, ⟨"u3", "f3"⟩,
          ⟨"u4", "f4"⟩, ⟨"u5", "f5"⟩] : List FileItem).enum).flatten =
        ([⟨"u1", "f1"⟩, ⟨"u2", "f2"⟩, ⟨"u3", "f3"⟩, ⟨"u4", "f4"⟩,
          ⟨"u5", "f5"⟩] : List FileItem).enum ∧
      batchResults (fun _ _ => .ok ⟨true, "fetch", none⟩) 2
          [⟨"u1", "f1"⟩, ⟨"u2", "f2"⟩, ⟨"u3", "f3"⟩, ⟨"u4", "f4"⟩,
            ⟨"u5", "f5"⟩] =
        ((chunkList 2 ([⟨"u1", "f1"⟩, ⟨"u2", "f2"⟩, ⟨"u3", "f3"⟩,
            ⟨"u4", "f4"⟩, ⟨"u5", "f5"⟩] : List FileItem).enum).map
          (fun batch => batch.map
            (fun p => processItem (fun _ _ => .ok ⟨true, "fetch", none⟩)
              p.1 p.2))).flatten :=
  downloadMultipleFiles_bounded_concurrency
    (fun _ _ => .ok ⟨true, "fetch", none⟩) 2
    [⟨"u1", "f1"⟩, ⟨"u2", "f2"⟩, ⟨"u3", "f3"⟩, ⟨"u4", "f4"⟩, ⟨"u5", "f5"⟩]
    (by decide)

/-- Claim C10. downloadMultipleFiles rejects with the message Files array
is required and must not be empty when its argument is not an array or
is an empty array, for every oracle and concurrency, so no download is
attempted there; and a batch result is only ever produced for a
non-empty list of items. -/
theorem downloadMultipleFiles_rejects_empty_input :
    (∀ (oracle : Nat → FileItem → Except String TransferOutcome) (c : Nat),
      downloadMultipleFiles oracle c none =
        .error "Files array is required and must not be empty") ∧
    (∀ (oracle : Nat → FileItem → Except String TransferOutcome) (c : Nat),
      downloadMultipleFiles oracle c (some []) =
        .error "Files array is required and must not be empty") ∧
    (∀ (oracle : Nat → FileItem → Except String TransferOutcome) (c : Nat)
        (files : Option (List FileItem)) (b : BatchResult),
      downloadMultipleFiles oracle c files = .ok b →
        ∃ fs, files = some fs ∧ fs ≠ []) := by
  refine ⟨fun _ _ => rfl, fun oracle c => rfl, ?_⟩
  intro oracle c files b hb
  cases files with
  | none => exact Except.noConfusion hb
  | some fs =>
    refine ⟨fs, rfl, ?_⟩
    intro hfs
    subst hfs
    exact Except.noConfusion hb

/-- Witness for claim C10: the implication conjunct applied to a concrete
resolving call. -/
theorem downloadMultipleFiles_rejects_empty_input_witness :
    ∃ fs, (some [(⟨"https://h.example/a.jpg", "a.jpg"⟩ : FileItem)] :
        Option (List FileItem)) = some fs ∧ fs ≠ [] :=
  downloadMultipleFiles_rejects_empty_input.2.2
    (fun _ _ => .ok ⟨true, "fetch", none⟩) 1
    (some [⟨"https://h.example/a.jpg", "a.jpg"⟩])
    ⟨1, 0, 1, [⟨⟨"https://h.example/a.jpg", "a.jpg"⟩, true, "fetch", none, 0⟩]⟩
    rfl

/-- Claim C8, counterexample. The claim states that after any single
strategy attempt completes, every transient element the strategy created
has been removed, so the attached count after the call equals the count
before it. Starting from an empty document, when the click throws, the
new-tab fallback leaves its appended anchor attached (the catch only
opens a new tab) and still resolves, and the direct-fetch strategy, whose
timeout callback throws before scheduling the removal, does the same:
both end with one attached element where there was none. -/
theorem downloadViaNewTab_leaks_anchor_on_click_throw :
    downloadViaNewTab ⟨true, false, false, false, false, false⟩ ⟨0, 0⟩ =
      (⟨1, 0⟩, .ok ()) ∧
    downloadViaDirectFetch true ⟨true, false, false, false, false, false⟩
      ⟨0, 0⟩ = (⟨1, 0⟩, .ok ()) := ⟨rfl, rfl⟩

/-- Claim C8 as amended. The blob-based trigger helpers and the iframe
strategy are cleanup-idempotent for every click oracle and initial
state: triggerDownload, forceDownload with its data-URL fallback,
tryDataUrlDownload and downloadViaIframe restore the attached-element
count and revoke every object URL they create, on success and on
failure. The new-tab fallback and the direct-fetch strategy restore the
count only when the anchor click does not throw: when it throws, each
leaks exactly its one appended anchor, while creating no object URL. -/
theorem strategies_dom_cleanup_characterization
    (o : ClickOracle) (s : DomState) (urlParses fetchOk : Bool) :
    ((triggerDownload o s).1 = s ∧ (forceDownload o s).1 = s ∧
      (tryDataUrlDownload o s).1 = s ∧
      (downloadViaIframe urlParses s).1 = s) ∧
    (o.standardClickThrows = false →
      (downloadViaNewTab o s).1 = s ∧
      (downloadViaDirectFetch fetchOk o s).1 = s) ∧
    (o.standardClickThrows = true →
      (downloadViaNewTab o s).1 =
        ⟨s.attachedElems + 1, s.liveObjectUrls⟩ ∧
      (fetchOk = true → o.readerFails = false →
        (downloadViaDirectFetch fetchOk o s).1 =
          ⟨s.attachedElems + 1, s.liveObjectUrls⟩)) := by
  obtain ⟨a, u⟩ := s
  refine ⟨⟨?_, ?_, ?_, ?_⟩, ?_, ?_⟩
  · simp [triggerDownload]
  · simp [forceDownload, tryDataUrlDownload]
    split_ifs <;> simp
  · simp [tryDataUrlDownload]
    split_ifs <;> simp
  · simp [downloadViaIframe]
    split_ifs <;> simp
  · intro hclick
    constructor
    · simp [downloadViaNewTab, hclick]
    · cases fetchOk <;>
        cases hread : o.readerFails <;>
        simp [downloadViaDirectFetch, hclick, hread]
  · intro hclick
    constructor
    · simp [downloadViaNewTab, hclick]
    · intro hfetch hread
      subst hfetch
      simp [downloadViaDirectFetch, hclick, hread]

/-- Witness for the amended claim C8: the no-throw cleanup conjunct and
the leak conjunct, both at concrete oracles and a concrete state. -/
theorem strategies_dom_cleanup_characterization_witness :
    ((downloadViaNewTab ⟨false, true, true, true, false, false⟩ ⟨3, 2⟩).1 =
        ⟨3, 2⟩ ∧
      (downloadViaDirectFetch true ⟨false, true, true, true, false, false⟩
        ⟨3, 2⟩).1 = ⟨3, 2⟩) ∧
    (downloadViaNewTab ⟨true, false, false, false, false, false⟩
      ⟨3, 2⟩).1 = ⟨4, 2⟩ :=
  ⟨(strategies_dom_cleanup_characterization
      ⟨false, true, true, true, false, false⟩ ⟨3, 2⟩ true true).2.1 rfl,
    ((strategies_dom_cleanup_characterization
      ⟨true, false, false, false, false, false⟩ ⟨3, 2⟩ true true).2.2 rfl).1⟩

end Photolibrary
